import Mathlib

/-!
Verification development for the srsRAN scheduler / NGAP UE-context sources.

Part A embeds the `ngap_ue_context_list` class (ngap_ue_context.h): the three
hash maps become association lists (`List (Nat × _)`) with `std::unordered_map`
operation semantics (`emplace` inserts only when the key is absent, `erase`
removes the key, `at`/`find` returns the first entry with the key), fatal
`srsran_assert` checks become `Option` failure, and log/timer side effects are
dropped.  Part B models the contention-resolution scheduling path, whose
implementation is not among the sources (only its test suite is): those
definitions are modelled from the spec and marked as such.
-/

/-! ### Association-list primitives (semantics of `std::unordered_map` usage) -/

/-- First value stored under key `k` (semantics of `unordered_map::find` / `at`). -/
def mfind {α : Type} (m : List (Nat × α)) (k : Nat) : Option α :=
  match m with
  | [] => none
  | (k', v) :: rest => if k' = k then some v else mfind rest k

/-- `unordered_map::emplace`: insert `(k, v)` only when `k` is absent. -/
def memplace {α : Type} (m : List (Nat × α)) (k : Nat) (v : α) : List (Nat × α) :=
  match mfind m k with
  | some _ => m
  | none => m ++ [(k, v)]

/-- `unordered_map::erase`: drop every entry stored under key `k`. -/
def merase {α : Type} (m : List (Nat × α)) (k : Nat) : List (Nat × α) :=
  match m with
  | [] => []
  | (k', v) :: rest => if k' = k then merase rest k else (k', v) :: merase rest k

/-- In-place mutation of the value stored under `k` (`map.at(k) = v`). -/
def mset {α : Type} (m : List (Nat × α)) (k : Nat) (v : α) : List (Nat × α) :=
  m.map (fun p => if p.1 = k then (k, v) else p)

/-! ### Identifier ranges

Modelled from the spec: the identifier types (`ngap_types.h` is not among the
sources).  Temporary (RAN) identifiers range over `0 .. 2^32 - 1` with a
distinguished invalid sentinel, stable (AMF) identifiers over `0 .. 2^40 - 1`,
and the device index has its own invalid sentinel. -/

def ran_ue_id_min : Nat := 0

def ran_ue_id_max : Nat := 2 ^ 32 - 1

def ran_ue_id_invalid : Nat := 2 ^ 32

def amf_ue_id_invalid : Nat := 2 ^ 40

def ue_index_invalid : Nat := 65536

/-- Modelled from the spec: the maximum concurrent device count
(`MAX_NOF_RAN_UES`); the numeric value is not among the sources, only that it
bounds admission. -/
def MAX_NOF_RAN_UES : Nat := 1024

/-! ### `ngap_ue_context` and `ngap_ue_context_list` (from ngap_ue_context.h) -/

/-- The identifier triple held by each context (`ngap_ue_ids`). -/
structure ngap_ue_ids where
  ue_index : Nat
  ran_ue_id : Nat
  amf_ue_id : Nat
deriving DecidableEq, Repr

/-- One device context (`ngap_ue_context`); the timer, byte buffer and logger
members are side-effecting and carry no identity state, so they are omitted. -/
structure ngap_ue_context where
  ue_ids : ngap_ue_ids
  aggregate_maximum_bit_rate_dl : Nat
  release_requested : Bool
  release_scheduled : Bool
deriving DecidableEq, Repr

/-- The `ngap_ue_context` constructor: the AMF identifier starts invalid. -/
def mk_ngap_ue_context (ue_index ran_ue_id : Nat) : ngap_ue_context :=
  { ue_ids := ⟨ue_index, ran_ue_id, amf_ue_id_invalid⟩
  , aggregate_maximum_bit_rate_dl := 0
  , release_requested := false
  , release_scheduled := false }

/-- The context store (`ngap_ue_context_list`): three lookup maps plus the
next-identifier counter. -/
structure ngap_ue_context_list where
  ue_index_to_ran_ue_id : List (Nat × Nat)
  amf_ue_id_to_ran_ue_id : List (Nat × Nat)
  ues : List (Nat × ngap_ue_context)
  next_ran_ue_id : Nat
deriving DecidableEq, Repr

/-- `contains(ran_ue_id_t)`. -/
def contains_ran_ue_id (s : ngap_ue_context_list) (r : Nat) : Bool :=
  (mfind s.ues r).isSome

/-- `contains(ue_index_t)`. -/
def contains_ue_index (s : ngap_ue_context_list) (i : Nat) : Bool :=
  match mfind s.ue_index_to_ran_ue_id i with
  | none => false
  | some r => (mfind s.ues r).isSome

/-- `contains(amf_ue_id_t)`. -/
def contains_amf_ue_id (s : ngap_ue_context_list) (a : Nat) : Bool :=
  match mfind s.amf_ue_id_to_ran_ue_id a with
  | none => false
  | some r => (mfind s.ues r).isSome

/-- `add_ue`: asserts both identifiers valid, then emplaces the fresh context
into `ues` and the index mapping into `ue_index_to_ran_ue_id`. -/
def add_ue (s : ngap_ue_context_list) (ue_index ran_ue_id : Nat) :
    Option ngap_ue_context_list :=
  if ue_index = ue_index_invalid then none
  else if ran_ue_id = ran_ue_id_invalid then none
  else
    some { s with
      ues := memplace s.ues ran_ue_id (mk_ngap_ue_context ue_index ran_ue_id)
      , ue_index_to_ran_ue_id := memplace s.ue_index_to_ran_ue_id ue_index ran_ue_id }

/-- `update_amf_ue_id`: asserts validity and presence, then either keeps an
already-equal AMF identifier, sets a previously-invalid one (emplacing the
reverse mapping), or replaces a different one (emplacing the new reverse
mapping and erasing the old). -/
def update_amf_ue_id (s : ngap_ue_context_list) (ran_ue_id amf_ue_id : Nat) :
    Option ngap_ue_context_list :=
  if amf_ue_id = amf_ue_id_invalid then none
  else if ran_ue_id = ran_ue_id_invalid then none
  else
    match mfind s.ues ran_ue_id with
    | none => none
    | some ue =>
      if ue.ue_ids.amf_ue_id = amf_ue_id then some s
      else if ue.ue_ids.amf_ue_id = amf_ue_id_invalid then
        some { s with
          ues := mset s.ues ran_ue_id
            { ue with ue_ids := { ue.ue_ids with amf_ue_id := amf_ue_id } }
          , amf_ue_id_to_ran_ue_id :=
              memplace s.amf_ue_id_to_ran_ue_id amf_ue_id ran_ue_id }
      else
        some { s with
          ues := mset s.ues ran_ue_id
            { ue with ue_ids := { ue.ue_ids with amf_ue_id := amf_ue_id } }
          , amf_ue_id_to_ran_ue_id :=
              merase (memplace s.amf_ue_id_to_ran_ue_id amf_ue_id ran_ue_id)
                ue.ue_ids.amf_ue_id }

/-- `update_ue_index`: asserts validity and presence, rewrites the context's
index, emplaces the new index mapping and erases the old one. -/
def update_ue_index (s : ngap_ue_context_list) (new_ue_index old_ue_index : Nat) :
    Option ngap_ue_context_list :=
  if new_ue_index = ue_index_invalid then none
  else if old_ue_index = ue_index_invalid then none
  else
    match mfind s.ue_index_to_ran_ue_id old_ue_index with
    | none => none
    | some ran_ue_id =>
      match mfind s.ues ran_ue_id with
      | none => none
      | some ue =>
        some { s with
          ues := mset s.ues ran_ue_id
            { ue with ue_ids := { ue.ue_ids with ue_index := new_ue_index } }
          , ue_index_to_ran_ue_id :=
              merase (memplace s.ue_index_to_ran_ue_id new_ue_index ran_ue_id)
                old_ue_index }

/-- `remove_ue_context`: a missing index mapping or context is only a warning
(an early `return`), the index mapping is erased before the context is looked
up, and the AMF mapping is erased only when the AMF identifier was set. -/
def remove_ue_context (s : ngap_ue_context_list) (ue_index : Nat) :
    Option ngap_ue_context_list :=
  if ue_index = ue_index_invalid then none
  else
    match mfind s.ue_index_to_ran_ue_id ue_index with
    | none => some s
    | some ran_ue_id =>
      match mfind s.ues ran_ue_id with
      | none => some { s with ue_index_to_ran_ue_id := merase s.ue_index_to_ran_ue_id ue_index }
      | some ue =>
        if ue.ue_ids.amf_ue_id ≠ amf_ue_id_invalid then
          some { s with
            ue_index_to_ran_ue_id := merase s.ue_index_to_ran_ue_id ue_index
            , amf_ue_id_to_ran_ue_id := merase s.amf_ue_id_to_ran_ue_id ue.ue_ids.amf_ue_id
            , ues := merase s.ues ran_ue_id }
        else
          some { s with
            ue_index_to_ran_ue_id := merase s.ue_index_to_ran_ue_id ue_index
            , ues := merase s.ues ran_ue_id }

/-- `increase_next_ran_ue_id`: wraps from the maximum back to the minimum. -/
def increase_next_ran_ue_id (s : ngap_ue_context_list) : ngap_ue_context_list :=
  if s.next_ran_ue_id = ran_ue_id_max then { s with next_ran_ue_id := ran_ue_id_min }
  else { s with next_ran_ue_id := s.next_ran_ue_id + 1 }

/-- The candidate loop of `allocate_ran_ue_id`.  The C++ `while (true)` always
terminates because at most `ue_index_to_ran_ue_id.size()` candidates can be in
use; the fuel mirrors that bound, and exhausted fuel lands on the (unreachable)
trailing `return ran_ue_id_t::invalid`. -/
def alloc_loop (s : ngap_ue_context_list) : Nat → Nat × ngap_ue_context_list
  | 0 => (ran_ue_id_invalid, s)
  | fuel + 1 =>
    if (s.ue_index_to_ran_ue_id.find? (fun u => u.2 == s.next_ran_ue_id)).isSome then
      alloc_loop (increase_next_ran_ue_id s) fuel
    else
      (s.next_ran_ue_id, increase_next_ran_ue_id s)

/-- `allocate_ran_ue_id`: refuse at capacity, otherwise scan candidates
starting from `next_ran_ue_id`. -/
def allocate_ran_ue_id (s : ngap_ue_context_list) : Nat × ngap_ue_context_list :=
  if s.ue_index_to_ran_ue_id.length = MAX_NOF_RAN_UES then (ran_ue_id_invalid, s)
  else alloc_loop s (s.ue_index_to_ran_ue_id.length + 1)

/-! ### Part B: contention-resolution scheduling

The scheduler implementation itself (fallback scheduler, policy, multiplexer)
is not among the sources — only its test suite and factory are — so the slot
behaviour below is modelled from the spec (sections 3, 4.2, 4.4, 8 of the
specification) and from the interface names the tests use. -/

/-- Logical channel identifier of the first control-plane channel (SRB0). -/
def LCID_SRB0 : Nat := 0

/-- Logical channel identifier of the second control-plane channel (SRB1). -/
def LCID_SRB1 : Nat := 1

/-- Control-element tag of the identity-confirmation (contention-resolution)
control element, `lcid_dl_sch_t::UE_CON_RES_ID`. -/
def UE_CON_RES_ID : Nat := 62

/-- Modelled from the spec: the byte size of the identity-confirmation control
element (a small mandatory payload). -/
def conres_ce_size : Nat := 6

/-- The contention-resolution phases of a device (section 4.2). -/
inductive conres_phase
  | detected
  | awaiting_resolution
  | resolved
  | released
deriving DecidableEq, Repr

/-- The addressing used in the control-channel assignment: temporary (TC-RNTI)
or stable (C-RNTI) address. -/
inductive dci_dl_rnti_config_type
  | tc_rnti_f1_0
  | c_rnti_f1_0
deriving DecidableEq, Repr

/-- Modelled from the spec: per-device scheduler context — admission phase,
pending identity-confirmation control element, and per-logical-channel pending
byte counters kept in fixed priority order. -/
structure ue_context where
  phase : conres_phase
  conres_ce_pending : Bool
  pending : List (Nat × Nat)
deriving DecidableEq, Repr

/-- One scheduled channel inside a transport block: logical channel (or
control element) identifier and scheduled byte count. -/
structure lc_sched_info where
  lcid : Nat
  sched_bytes : Nat
deriving DecidableEq, Repr

/-- A downlink allocation for the device: transport blocks, each a list of
scheduled channels, plus the addressing used. -/
structure dl_msg_alloc where
  tb_list : List (List lc_sched_info)
  dci_type : dci_dl_rnti_config_type
deriving DecidableEq, Repr

/-- The per-slot allocation result visible to the claims: the device's
downlink allocation (when any) and the reference-signal resources active that
slot. -/
structure slot_result where
  ue_pdsch : Option dl_msg_alloc
  csi_rs : List Nat
deriving DecidableEq, Repr

/-- Modelled from the spec: the cell's (nonempty) configured reference-signal
resource set, fixed before device allocation. -/
def cell_csi_rs_resources : List Nat := [0, 1]

/-- The asynchronous events the tests feed the scheduler: control-element
request, buffer-state update, and the upper-layer identity confirmation. -/
inductive sched_event
  | conres_ce_indication
  | dl_buffer_state (lcid : Nat) (bytes : Nat)
  | crnti_confirmation
deriving DecidableEq, Repr

/-- Record a buffer-state update: replace the channel's pending byte count, or
append the channel at the end of the priority order when new. -/
def set_pending (pending : List (Nat × Nat)) (lcid bytes : Nat) : List (Nat × Nat) :=
  match mfind pending lcid with
  | some _ => mset pending lcid bytes
  | none => pending ++ [(lcid, bytes)]

/-- Modelled from the spec: event application at the slot boundary.  Enqueuing
the identity-confirmation control element moves a `detected` device to
`awaiting_resolution`; the explicit upper-layer confirmation moves a live
device to `resolved`. -/
def apply_event (c : ue_context) : sched_event → ue_context
  | .conres_ce_indication =>
    { c with
      conres_ce_pending := true
      , phase := match c.phase with
        | .detected => .awaiting_resolution
        | p => p }
  | .dl_buffer_state lcid bytes => { c with pending := set_pending c.pending lcid bytes }
  | .crnti_confirmation =>
    { c with phase := match c.phase with
      | .released => .released
      | _ => .resolved }

/-- Total pending downlink data bytes over all logical channels. -/
def total_pending (c : ue_context) : Nat :=
  (c.pending.map Prod.snd).sum

/-- Modelled from the spec (section 4.4): the multiplexer packs in fixed
priority order — the pending control element first, then the logical channels
in priority order.  The orchestrator grows the grant to fit the mandatory
content (section 4.2), so every served channel is served in full. -/
def pack (c : ue_context) : List lc_sched_info :=
  (if c.conres_ce_pending then [⟨UE_CON_RES_ID, conres_ce_size⟩] else []) ++
    (c.pending.filter (fun p => 0 < p.2)).map (fun p => ⟨p.1, p.2⟩)

/-- Modelled from the spec: the per-slot allocation decision for the device.
No data pending means no downlink allocation (a pending control element alone
is never scheduled); before the identity is resolved the temporary address is
used, after resolution the stable address. -/
def alloc_ue (c : ue_context) : Option dl_msg_alloc :=
  match c.phase with
  | .released => none
  | .resolved =>
    if 0 < total_pending c then some ⟨[pack c], .c_rnti_f1_0⟩ else none
  | _ =>
    if 0 < total_pending c then some ⟨[pack c], .tc_rnti_f1_0⟩ else none

/-- After a served allocation the control element and the pending counters are
consumed. -/
def clear_after_alloc (c : ue_context) : ue_context :=
  { c with conres_ce_pending := false, pending := c.pending.map (fun p => (p.1, 0)) }

/-- Modelled from the spec: one slot — drain the slot's events, decide the
allocation, and emit the slot result.  When a not-yet-resolved device is
served, its transport block is not multiplexed with the cell's reference
signals (section 4.2); otherwise the configured reference signals are active. -/
def run_slot (c : ue_context) (events : List sched_event) : ue_context × slot_result :=
  let c1 := events.foldl apply_event c
  match alloc_ue c1 with
  | none => (c1, ⟨none, cell_csi_rs_resources⟩)
  | some a =>
    (clear_after_alloc c1,
      ⟨some a,
        match c1.phase with
        | .resolved => cell_csi_rs_resources
        | _ => []⟩)

/-- Run a sequence of slots, each with its own drained event list. -/
def run_slots (c : ue_context) : List (List sched_event) → ue_context × List slot_result
  | [] => (c, [])
  | evs :: rest =>
    let step := run_slot c evs
    let tail := run_slots step.1 rest
    (tail.1, step.2 :: tail.2)

/-! ### Concrete inputs used by the witnesses -/

/-- The empty context store. -/
def empty_store : ngap_ue_context_list := ⟨[], [], [], 0⟩

/-- A store holding one device: index 3, temporary identifier 5, no stable
identifier yet. -/
def one_ue_store : ngap_ue_context_list :=
  ⟨[(3, 5)], [], [(5, mk_ngap_ue_context 3 5)], 0⟩

/-- `one_ue_store` after `update_amf_ue_id 5 7`. -/
def one_ue_store_resolved : ngap_ue_context_list :=
  ⟨[(3, 5)], [(7, 5)],
    [(5, { ue_ids := ⟨3, 5, 7⟩
         , aggregate_maximum_bit_rate_dl := 0
         , release_requested := false
         , release_scheduled := false })], 0⟩

/-- A store whose index map is at the admission capacity. -/
def full_store : ngap_ue_context_list :=
  ⟨(List.range MAX_NOF_RAN_UES).map (fun i => (i, i)), [], [], 0⟩

/-- A store whose next-identifier counter sits at the maximum value. -/
def wrap_store : ngap_ue_context_list := ⟨[], [], [], ran_ue_id_max⟩

/-- A device awaiting resolution with a pending control element and no data. -/
def ctx_ce_only : ue_context := ⟨.awaiting_resolution, true, []⟩

/-- A device awaiting resolution with a pending control element and a 128-byte
message on the first control-plane channel. -/
def ctx_ce_srb0 : ue_context := ⟨.awaiting_resolution, true, [(LCID_SRB0, 128)]⟩


/-! ### Lemmas about the association-list primitives -/

theorem mfind_cons {α : Type} (k' : Nat) (v : α) (rest : List (Nat × α)) (k : Nat) :
    mfind ((k', v) :: rest) k = if k' = k then some v else mfind rest k := rfl

theorem merase_cons {α : Type} (k' : Nat) (v : α) (rest : List (Nat × α)) (k : Nat) :
    merase ((k', v) :: rest) k =
      if k' = k then merase rest k else (k', v) :: merase rest k := rfl

theorem mfind_none_notmem {α : Type} {m : List (Nat × α)} {k : Nat}
    (h : mfind m k = none) : ∀ p ∈ m, p.1 ≠ k := by
  induction m with
  | nil => intro p hp; cases hp
  | cons q rest ih =>
    obtain ⟨k', v⟩ := q
    rw [mfind_cons] at h
    intro p hp
    rcases List.mem_cons.mp hp with hp | hp
    · subst hp
      intro hk
      rw [if_pos hk] at h
      cases h
    · by_cases hk : k' = k
      · rw [if_pos hk] at h; cases h
      · rw [if_neg hk] at h
        exact ih h p hp

theorem mfind_append_self {α : Type} {m : List (Nat × α)} {k : Nat} (v : α)
    (h : mfind m k = none) : mfind (m ++ [(k, v)]) k = some v := by
  induction m with
  | nil => simp [mfind]
  | cons q rest ih =>
    obtain ⟨k', v'⟩ := q
    rw [mfind_cons] at h
    by_cases hk : k' = k
    · rw [if_pos hk] at h; cases h
    · rw [if_neg hk] at h
      rw [List.cons_append, mfind_cons, if_neg hk]
      exact ih h

theorem memplace_of_none {α : Type} {m : List (Nat × α)} {k : Nat} (v : α)
    (h : mfind m k = none) : memplace m k v = m ++ [(k, v)] := by
  unfold memplace
  rw [h]

theorem mfind_merase_self {α : Type} (m : List (Nat × α)) (k : Nat) :
    mfind (merase m k) k = none := by
  induction m with
  | nil => rfl
  | cons q rest ih =>
    obtain ⟨k', v⟩ := q
    rw [merase_cons]
    by_cases hk : k' = k
    · rw [if_pos hk]; exact ih
    · rw [if_neg hk, mfind_cons, if_neg hk]; exact ih

theorem mfind_merase_ne {α : Type} (m : List (Nat × α)) {k k' : Nat}
    (h : k' ≠ k) : mfind (merase m k) k' = mfind m k' := by
  induction m with
  | nil => rfl
  | cons q rest ih =>
    obtain ⟨k0, v⟩ := q
    rw [merase_cons]
    by_cases hk : k0 = k
    · rw [if_pos hk, mfind_cons]
      have hne : k0 ≠ k' := by
        subst hk
        exact fun he => h he.symm
      rw [if_neg hne]
      exact ih
    · rw [if_neg hk, mfind_cons, mfind_cons]
      by_cases hk0 : k0 = k'
      · rw [if_pos hk0, if_pos hk0]
      · rw [if_neg hk0, if_neg hk0]
        exact ih

theorem merase_of_none {α : Type} {m : List (Nat × α)} {k : Nat}
    (h : mfind m k = none) : merase m k = m := by
  induction m with
  | nil => rfl
  | cons q rest ih =>
    obtain ⟨k', v⟩ := q
    rw [mfind_cons] at h
    by_cases hk : k' = k
    · rw [if_pos hk] at h; cases h
    · rw [if_neg hk] at h
      rw [merase_cons, if_neg hk, ih h]

theorem merase_append_self {α : Type} {m : List (Nat × α)} {k : Nat} (v : α)
    (h : mfind m k = none) : merase (m ++ [(k, v)]) k = m := by
  induction m with
  | nil => simp [merase]
  | cons q rest ih =>
    obtain ⟨k', v'⟩ := q
    rw [mfind_cons] at h
    by_cases hk : k' = k
    · rw [if_pos hk] at h; cases h
    · rw [if_neg hk] at h
      rw [List.cons_append, merase_cons, if_neg hk, ih h]

theorem mfind_mset_self {α : Type} {m : List (Nat × α)} {k : Nat} {u : α} (v : α)
    (h : mfind m k = some u) : mfind (mset m k v) k = some v := by
  induction m with
  | nil => cases h
  | cons q rest ih =>
    obtain ⟨k', v'⟩ := q
    rw [mfind_cons] at h
    have hcons : mset ((k', v') :: rest) k v =
        (if k' = k then (k, v) else (k', v')) :: mset rest k v := rfl
    rw [hcons]
    by_cases hk : k' = k
    · rw [if_pos hk, mfind_cons, if_pos rfl]
    · rw [if_neg hk] at h
      rw [if_neg hk, mfind_cons, if_neg hk]
      exact ih h

theorem mset_append_of_none {α : Type} {m : List (Nat × α)} {k : Nat} (v w : α)
    (h : mfind m k = none) : mset (m ++ [(k, v)]) k w = m ++ [(k, w)] := by
  induction m with
  | nil => simp [mset]
  | cons q rest ih =>
    obtain ⟨k', v'⟩ := q
    rw [mfind_cons] at h
    by_cases hk : k' = k
    · rw [if_pos hk] at h; cases h
    · rw [if_neg hk] at h
      have hcons : mset (((k', v') :: rest) ++ [(k, v)]) k w =
          (if k' = k then (k, w) else (k', v')) :: mset (rest ++ [(k, v)]) k w := rfl
      rw [hcons, if_neg hk, ih h]
      rfl

theorem mfind_mem {α : Type} {m : List (Nat × α)} {k : Nat} {v : α}
    (h : mfind m k = some v) : (k, v) ∈ m := by
  induction m with
  | nil => cases h
  | cons q rest ih =>
    obtain ⟨k', v'⟩ := q
    rw [mfind_cons] at h
    by_cases hk : k' = k
    · rw [if_pos hk] at h
      subst hk
      injection h with h
      subst h
      exact List.mem_cons_self _ _
    · rw [if_neg hk] at h
      exact List.mem_cons_of_mem _ (ih h)

/-! ### Claim theorems for the context store -/

/-- Claim C8: when the store already holds `MAX_NOF_RAN_UES` devices, the next
admission attempt fails — `allocate_ran_ue_id` returns the invalid identifier —
and the store (contexts and all three lookup maps) is left unchanged. -/
theorem c8_allocation_refused_at_capacity (s : ngap_ue_context_list)
    (hfull : s.ue_index_to_ran_ue_id.length = MAX_NOF_RAN_UES) :
    allocate_ran_ue_id s = (ran_ue_id_invalid, s) := by
  unfold allocate_ran_ue_id
  rw [if_pos hfull]

/-- Witness for C8 at a store holding the maximum device count. -/
theorem c8_allocation_refused_at_capacity_witness :
    allocate_ran_ue_id full_store = (ran_ue_id_invalid, full_store) :=
  c8_allocation_refused_at_capacity full_store (by
    simp [full_store])

/-- Reduction of `update_amf_ue_id` once the context lookup is known. -/
theorem update_amf_ue_id_eq {s : ngap_ue_context_list} {ran_ue_id amf_ue_id : Nat}
    {ue : ngap_ue_context}
    (ha : amf_ue_id ≠ amf_ue_id_invalid) (hr : ran_ue_id ≠ ran_ue_id_invalid)
    (hue : mfind s.ues ran_ue_id = some ue) :
    update_amf_ue_id s ran_ue_id amf_ue_id =
      (if ue.ue_ids.amf_ue_id = amf_ue_id then some s
       else if ue.ue_ids.amf_ue_id = amf_ue_id_invalid then
         some { s with
           ues := mset s.ues ran_ue_id
             { ue with ue_ids := { ue.ue_ids with amf_ue_id := amf_ue_id } }
           , amf_ue_id_to_ran_ue_id :=
               memplace s.amf_ue_id_to_ran_ue_id amf_ue_id ran_ue_id }
       else
         some { s with
           ues := mset s.ues ran_ue_id
             { ue with ue_ids := { ue.ue_ids with amf_ue_id := amf_ue_id } }
           , amf_ue_id_to_ran_ue_id :=
               merase (memplace s.amf_ue_id_to_ran_ue_id amf_ue_id ran_ue_id)
                 ue.ue_ids.amf_ue_id }) := by
  rw [update_amf_ue_id, if_neg ha, if_neg hr, hue]

/-- Claim C9: `update_amf_ue_id` is idempotent — a second call with the same
temporary and stable identifiers leaves the store exactly as the first call
left it. -/
theorem c9_update_amf_ue_id_idempotent (s s' : ngap_ue_context_list)
    (ran_ue_id amf_ue_id : Nat)
    (h : update_amf_ue_id s ran_ue_id amf_ue_id = some s') :
    update_amf_ue_id s' ran_ue_id amf_ue_id = some s' := by
  by_cases ha : amf_ue_id = amf_ue_id_invalid
  · rw [update_amf_ue_id, if_pos ha] at h; cases h
  by_cases hr : ran_ue_id = ran_ue_id_invalid
  · rw [update_amf_ue_id, if_neg ha, if_pos hr] at h; cases h
  cases hue : mfind s.ues ran_ue_id with
  | none => rw [update_amf_ue_id, if_neg ha, if_neg hr, hue] at h; cases h
  | some ue =>
    rw [update_amf_ue_id_eq ha hr hue] at h
    by_cases heq : ue.ue_ids.amf_ue_id = amf_ue_id
    · rw [if_pos heq] at h
      injection h with h
      subst h
      rw [update_amf_ue_id_eq ha hr hue, if_pos heq]
    · rw [if_neg heq] at h
      have hset := mfind_mset_self
        (m := s.ues) (k := ran_ue_id) (u := ue)
        { ue with ue_ids := { ue.ue_ids with amf_ue_id := amf_ue_id } } hue
      by_cases hinv : ue.ue_ids.amf_ue_id = amf_ue_id_invalid
      · rw [if_pos hinv] at h
        injection h with h
        subst h
        rw [update_amf_ue_id_eq ha hr hset, if_pos rfl]
      · rw [if_neg hinv] at h
        injection h with h
        subst h
        rw [update_amf_ue_id_eq ha hr hset, if_pos rfl]

/-- Witness for C9: setting AMF identifier 7 on the one-device store, twice. -/
theorem c9_update_amf_ue_id_idempotent_witness :
    update_amf_ue_id one_ue_store_resolved 5 7 = some one_ue_store_resolved :=
  c9_update_amf_ue_id_idempotent one_ue_store one_ue_store_resolved 5 7 rfl

/-- Reduction of `update_ue_index` once both lookups are known. -/
theorem update_ue_index_eq {s : ngap_ue_context_list}
    {new_ue_index old_ue_index ran_ue_id : Nat} {ue : ngap_ue_context}
    (hn : new_ue_index ≠ ue_index_invalid) (ho : old_ue_index ≠ ue_index_invalid)
    (hidx : mfind s.ue_index_to_ran_ue_id old_ue_index = some ran_ue_id)
    (hue : mfind s.ues ran_ue_id = some ue) :
    update_ue_index s new_ue_index old_ue_index =
      some { s with
        ues := mset s.ues ran_ue_id
          { ue with ue_ids := { ue.ue_ids with ue_index := new_ue_index } }
        , ue_index_to_ran_ue_id :=
            merase (memplace s.ue_index_to_ran_ue_id new_ue_index ran_ue_id)
              old_ue_index } := by
  simp only [update_ue_index, if_neg hn, if_neg ho, hidx, hue]

/-- Claim C6: three-way consistency across identity transitions.  After an
`update_amf_ue_id` whose preconditions hold (context present, identifiers
valid, the new AMF identifier an actual change and not already mapped), the
lookups by temporary identifier, by device index and by stable identifier all
resolve to the same updated context and the superseded AMF identifier no
longer resolves; after an `update_ue_index` whose preconditions hold (mappings
present, identifiers valid, the new index fresh), the lookups resolve to the
same re-indexed context and the superseded index no longer resolves. -/
theorem c6_three_way_consistency_across_identity_transitions :
    (∀ (s : ngap_ue_context_list) (ran_ue_id amf_ue_id : Nat) (ue : ngap_ue_context),
      mfind s.ues ran_ue_id = some ue →
      mfind s.ue_index_to_ran_ue_id ue.ue_ids.ue_index = some ran_ue_id →
      amf_ue_id ≠ amf_ue_id_invalid →
      ran_ue_id ≠ ran_ue_id_invalid →
      ue.ue_ids.amf_ue_id ≠ amf_ue_id →
      mfind s.amf_ue_id_to_ran_ue_id amf_ue_id = none →
      ∃ s', update_amf_ue_id s ran_ue_id amf_ue_id = some s' ∧
        mfind s'.ues ran_ue_id =
          some { ue with ue_ids := { ue.ue_ids with amf_ue_id := amf_ue_id } } ∧
        mfind s'.ue_index_to_ran_ue_id ue.ue_ids.ue_index = some ran_ue_id ∧
        mfind s'.amf_ue_id_to_ran_ue_id amf_ue_id = some ran_ue_id ∧
        (ue.ue_ids.amf_ue_id ≠ amf_ue_id_invalid →
          mfind s'.amf_ue_id_to_ran_ue_id ue.ue_ids.amf_ue_id = none)) ∧
    (∀ (s : ngap_ue_context_list) (new_ue_index old_ue_index ran_ue_id : Nat)
        (ue : ngap_ue_context),
      mfind s.ue_index_to_ran_ue_id old_ue_index = some ran_ue_id →
      mfind s.ues ran_ue_id = some ue →
      new_ue_index ≠ ue_index_invalid →
      old_ue_index ≠ ue_index_invalid →
      new_ue_index ≠ old_ue_index →
      mfind s.ue_index_to_ran_ue_id new_ue_index = none →
      ∃ s', update_ue_index s new_ue_index old_ue_index = some s' ∧
        mfind s'.ues ran_ue_id =
          some { ue with ue_ids := { ue.ue_ids with ue_index := new_ue_index } } ∧
        mfind s'.ue_index_to_ran_ue_id new_ue_index = some ran_ue_id ∧
        mfind s'.ue_index_to_ran_ue_id old_ue_index = none ∧
        s'.amf_ue_id_to_ran_ue_id = s.amf_ue_id_to_ran_ue_id) := by
  constructor
  · intro s ran_ue_id amf_ue_id ue hue hidx ha hr hne hfresh
    rw [update_amf_ue_id_eq ha hr hue, if_neg hne]
    by_cases hinv : ue.ue_ids.amf_ue_id = amf_ue_id_invalid
    · rw [if_pos hinv]
      refine ⟨_, rfl, ?_, ?_, ?_, ?_⟩
      · exact mfind_mset_self _ hue
      · exact hidx
      · rw [memplace_of_none _ hfresh]
        exact mfind_append_self _ hfresh
      · intro hcon; exact absurd hinv hcon
    · rw [if_neg hinv]
      refine ⟨_, rfl, ?_, ?_, ?_, ?_⟩
      · exact mfind_mset_self _ hue
      · exact hidx
      · rw [memplace_of_none _ hfresh]
        rw [mfind_merase_ne _ (fun he => hne he.symm)]
        exact mfind_append_self _ hfresh
      · intro _
        exact mfind_merase_self _ _
  · intro s new_ue_index old_ue_index ran_ue_id ue hidx hue hn ho hno hfresh
    rw [update_ue_index_eq hn ho hidx hue]
    refine ⟨_, rfl, ?_, ?_, ?_, rfl⟩
    · exact mfind_mset_self _ hue
    · rw [memplace_of_none _ hfresh, mfind_merase_ne _ hno]
      exact mfind_append_self _ hfresh
    · exact mfind_merase_self _ _

/-- Witness for C6: both identity transitions applied to the one-device store
(device index 3, temporary identifier 5): the AMF identifier 7 is set, and the
device index is moved to 9. -/
theorem c6_three_way_consistency_across_identity_transitions_witness :
    (update_amf_ue_id one_ue_store 5 7).isSome = true ∧
    (update_ue_index one_ue_store 9 3).isSome = true := by
  obtain ⟨s1, h1, -, -, -, -⟩ :=
    c6_three_way_consistency_across_identity_transitions.1 one_ue_store 5 7
      (mk_ngap_ue_context 3 5) rfl rfl (by decide) (by decide) (by decide) rfl
  obtain ⟨s2, h2, -, -, -, -⟩ :=
    c6_three_way_consistency_across_identity_transitions.2 one_ue_store 9 3 5
      (mk_ngap_ue_context 3 5) rfl rfl (by decide) (by decide) (by decide) rfl
  constructor
  · rw [h1]; rfl
  · rw [h2]; rfl

/-- Claim C7: round-trip — a device added (`add_ue`), given a stable
identifier (`update_amf_ue_id`) and then released (`remove_ue_context` by its
device index) leaves no entry in any of the three lookup maps, and `contains`
is false for all three of its identifiers. -/
theorem c7_roundtrip_releases_all_lookups
    (s : ngap_ue_context_list) (ue_index ran_ue_id amf_ue_id : Nat)
    (s1 s2 s3 : ngap_ue_context_list)
    (hiv : ue_index ≠ ue_index_invalid)
    (hrv : ran_ue_id ≠ ran_ue_id_invalid)
    (hav : amf_ue_id ≠ amf_ue_id_invalid)
    (hfi : mfind s.ue_index_to_ran_ue_id ue_index = none)
    (hfr : mfind s.ues ran_ue_id = none)
    (hfa : mfind s.amf_ue_id_to_ran_ue_id amf_ue_id = none)
    (h1 : add_ue s ue_index ran_ue_id = some s1)
    (h2 : update_amf_ue_id s1 ran_ue_id amf_ue_id = some s2)
    (h3 : remove_ue_context s2 ue_index = some s3) :
    mfind s3.ue_index_to_ran_ue_id ue_index = none ∧
    mfind s3.ues ran_ue_id = none ∧
    mfind s3.amf_ue_id_to_ran_ue_id amf_ue_id = none ∧
    contains_ue_index s3 ue_index = false ∧
    contains_ran_ue_id s3 ran_ue_id = false ∧
    contains_amf_ue_id s3 amf_ue_id = false := by
  -- Step 1: the store after `add_ue`.
  rw [add_ue, if_neg hiv, if_neg hrv, memplace_of_none _ hfr, memplace_of_none _ hfi] at h1
  injection h1 with h1
  subst h1
  -- Step 2: the store after `update_amf_ue_id`.
  have hue1 : mfind ({ s with
      ues := s.ues ++ [(ran_ue_id, mk_ngap_ue_context ue_index ran_ue_id)]
      , ue_index_to_ran_ue_id :=
          s.ue_index_to_ran_ue_id ++ [(ue_index, ran_ue_id)] } : ngap_ue_context_list).ues
      ran_ue_id = some (mk_ngap_ue_context ue_index ran_ue_id) :=
    mfind_append_self _ hfr
  rw [update_amf_ue_id_eq hav hrv hue1] at h2
  have hmk : (mk_ngap_ue_context ue_index ran_ue_id).ue_ids.amf_ue_id = amf_ue_id_invalid := rfl
  rw [hmk, if_neg (fun he => hav he.symm), if_pos rfl] at h2
  injection h2 with h2
  subst h2
  -- Step 3: the store after `remove_ue_context`.
  have hfi2 : mfind
      ((s.ue_index_to_ran_ue_id ++ [(ue_index, ran_ue_id)]) : List (Nat × Nat)) ue_index =
      some ran_ue_id := mfind_append_self _ hfi
  have hues2 : mset (s.ues ++ [(ran_ue_id, mk_ngap_ue_context ue_index ran_ue_id)]) ran_ue_id
      { mk_ngap_ue_context ue_index ran_ue_id with
        ue_ids := { (mk_ngap_ue_context ue_index ran_ue_id).ue_ids with amf_ue_id := amf_ue_id } } =
      s.ues ++ [(ran_ue_id,
        { mk_ngap_ue_context ue_index ran_ue_id with
          ue_ids := { (mk_ngap_ue_context ue_index ran_ue_id).ue_ids with amf_ue_id := amf_ue_id } })] :=
    mset_append_of_none _ _ hfr
  have hue2 : mfind (s.ues ++ [(ran_ue_id,
      { mk_ngap_ue_context ue_index ran_ue_id with
        ue_ids := { (mk_ngap_ue_context ue_index ran_ue_id).ue_ids with amf_ue_id := amf_ue_id } })])
      ran_ue_id = some
      { mk_ngap_ue_context ue_index ran_ue_id with
        ue_ids := { (mk_ngap_ue_context ue_index ran_ue_id).ue_ids with amf_ue_id := amf_ue_id } } :=
    mfind_append_self _ hfr
  rw [memplace_of_none _ hfa, hues2] at h3
  simp only [remove_ue_context, if_neg hiv, hfi2, hue2] at h3
  rw [if_pos hav] at h3
  injection h3 with h3
  subst h3
  -- The three erasures restore the original maps.
  have hm1 : merase (s.ue_index_to_ran_ue_id ++ [(ue_index, ran_ue_id)]) ue_index =
      s.ue_index_to_ran_ue_id := merase_append_self _ hfi
  have hm2 : merase (s.amf_ue_id_to_ran_ue_id ++ [(amf_ue_id, ran_ue_id)]) amf_ue_id =
      s.amf_ue_id_to_ran_ue_id := merase_append_self _ hfa
  have hm3 : merase (s.ues ++ [(ran_ue_id,
      { mk_ngap_ue_context ue_index ran_ue_id with
        ue_ids := { (mk_ngap_ue_context ue_index ran_ue_id).ue_ids with amf_ue_id := amf_ue_id } })])
      ran_ue_id = s.ues := merase_append_self _ hfr
  refine ⟨?_, ?_, ?_, ?_, ?_, ?_⟩
  · show mfind (merase (s.ue_index_to_ran_ue_id ++ [(ue_index, ran_ue_id)]) ue_index) ue_index = none
    rw [hm1]; exact hfi
  · show mfind (merase (s.ues ++ [(ran_ue_id,
      { mk_ngap_ue_context ue_index ran_ue_id with
        ue_ids := { (mk_ngap_ue_context ue_index ran_ue_id).ue_ids with amf_ue_id := amf_ue_id } })])
      ran_ue_id) ran_ue_id = none
    rw [hm3]; exact hfr
  · show mfind (merase (s.amf_ue_id_to_ran_ue_id ++ [(amf_ue_id, ran_ue_id)]) amf_ue_id)
      amf_ue_id = none
    rw [hm2]; exact hfa
  · show contains_ue_index _ ue_index = false
    rw [contains_ue_index]
    show (match mfind (merase (s.ue_index_to_ran_ue_id ++ [(ue_index, ran_ue_id)]) ue_index)
        ue_index with
      | none => false
      | some r => (mfind (merase (s.ues ++ [(ran_ue_id,
          { mk_ngap_ue_context ue_index ran_ue_id with
            ue_ids := { (mk_ngap_ue_context ue_index ran_ue_id).ue_ids with
              amf_ue_id := amf_ue_id } })]) ran_ue_id) r).isSome) = false
    rw [hm1, hfi]
  · show contains_ran_ue_id _ ran_ue_id = false
    rw [contains_ran_ue_id]
    show (mfind (merase (s.ues ++ [(ran_ue_id,
        { mk_ngap_ue_context ue_index ran_ue_id with
          ue_ids := { (mk_ngap_ue_context ue_index ran_ue_id).ue_ids with
            amf_ue_id := amf_ue_id } })]) ran_ue_id) ran_ue_id).isSome = false
    rw [hm3, hfr]
    rfl
  · show contains_amf_ue_id _ amf_ue_id = false
    rw [contains_amf_ue_id]
    show (match mfind (merase (s.amf_ue_id_to_ran_ue_id ++ [(amf_ue_id, ran_ue_id)]) amf_ue_id)
        amf_ue_id with
      | none => false
      | some r => (mfind (merase (s.ues ++ [(ran_ue_id,
          { mk_ngap_ue_context ue_index ran_ue_id with
            ue_ids := { (mk_ngap_ue_context ue_index ran_ue_id).ue_ids with
              amf_ue_id := amf_ue_id } })]) ran_ue_id) r).isSome) = false
    rw [hm2, hfa]

/-- Witness for C7: device index 3, temporary identifier 5, stable identifier
7 driven through add, resolve and release from the empty store. -/
theorem c7_roundtrip_releases_all_lookups_witness :
    contains_ue_index empty_store 3 = false ∧
    contains_ran_ue_id empty_store 5 = false ∧
    contains_amf_ue_id empty_store 7 = false := by
  obtain ⟨-, -, -, h4, h5, h6⟩ :=
    c7_roundtrip_releases_all_lookups empty_store 3 5 7 one_ue_store one_ue_store_resolved
      empty_store (by decide) (by decide) (by decide) rfl rfl rfl rfl rfl rfl
  exact ⟨h4, h5, h6⟩

/-- The candidate loop only advances the counter and returns an identifier not
mapped to any stored device. -/
theorem alloc_loop_fresh :
    ∀ (fuel : Nat) (s : ngap_ue_context_list) (r : Nat) (s' : ngap_ue_context_list),
      alloc_loop s fuel = (r, s') → r ≠ ran_ue_id_invalid →
      (∀ p ∈ s.ue_index_to_ran_ue_id, p.2 ≠ r) ∧
      s'.ue_index_to_ran_ue_id = s.ue_index_to_ran_ue_id ∧
      s'.amf_ue_id_to_ran_ue_id = s.amf_ue_id_to_ran_ue_id ∧
      s'.ues = s.ues := by
  intro fuel
  induction fuel with
  | zero =>
    intro s r s' h hne
    rw [alloc_loop] at h
    injection h with h1 h2
    exact absurd h1.symm hne
  | succ n ih =>
    intro s r s' h hne
    rw [alloc_loop] at h
    have hpres : (increase_next_ran_ue_id s).ue_index_to_ran_ue_id = s.ue_index_to_ran_ue_id ∧
        (increase_next_ran_ue_id s).amf_ue_id_to_ran_ue_id = s.amf_ue_id_to_ran_ue_id ∧
        (increase_next_ran_ue_id s).ues = s.ues := by
      rw [increase_next_ran_ue_id]
      split
      · exact ⟨rfl, rfl, rfl⟩
      · exact ⟨rfl, rfl, rfl⟩
    by_cases hf : (s.ue_index_to_ran_ue_id.find? (fun u => u.2 == s.next_ran_ue_id)).isSome
    · rw [if_pos hf] at h
      obtain ⟨hfr, h1, h2, h3⟩ := ih _ _ _ h hne
      refine ⟨?_, ?_, ?_, ?_⟩
      · intro p hp
        exact hfr p (by rw [hpres.1]; exact hp)
      · rw [h1, hpres.1]
      · rw [h2, hpres.2.1]
      · rw [h3, hpres.2.2]
    · rw [if_neg hf] at h
      injection h with h1 h2
      subst h1
      subst h2
      have hnone : s.ue_index_to_ran_ue_id.find? (fun u => u.2 == s.next_ran_ue_id) = none :=
        Option.not_isSome_iff_eq_none.mp hf
      have hall := List.find?_eq_none.mp hnone
      refine ⟨?_, hpres.1, hpres.2.1, hpres.2.2⟩
      intro p hp hpe
      exact hall p hp (beq_iff_eq.mpr hpe)

/-- Claim C10: a successful `allocate_ran_ue_id` returns a fresh identifier —
no stored device is mapped to it — modifies nothing but the next-identifier
counter, and the counter wraps from its maximum back to its minimum. -/
theorem c10_allocate_fresh_and_counter_only :
    (∀ (s : ngap_ue_context_list) (r : Nat) (s' : ngap_ue_context_list),
      allocate_ran_ue_id s = (r, s') → r ≠ ran_ue_id_invalid →
      (∀ p ∈ s.ue_index_to_ran_ue_id, p.2 ≠ r) ∧
      s'.ue_index_to_ran_ue_id = s.ue_index_to_ran_ue_id ∧
      s'.amf_ue_id_to_ran_ue_id = s.amf_ue_id_to_ran_ue_id ∧
      s'.ues = s.ues) ∧
    (∀ t : ngap_ue_context_list, t.next_ran_ue_id = ran_ue_id_max →
      (increase_next_ran_ue_id t).next_ran_ue_id = ran_ue_id_min) := by
  constructor
  · intro s r s' h hne
    rw [allocate_ran_ue_id] at h
    by_cases hfull : s.ue_index_to_ran_ue_id.length = MAX_NOF_RAN_UES
    · rw [if_pos hfull] at h
      injection h with h1 h2
      exact absurd h1.symm hne
    · rw [if_neg hfull] at h
      exact alloc_loop_fresh _ _ _ _ h hne
  · intro t ht
    rw [increase_next_ran_ue_id, if_pos ht]

/-- Witness for C10: allocation from the empty store, and the wrap at the
maximum counter value. -/
theorem c10_allocate_fresh_and_counter_only_witness :
    ((⟨[], [], [], 1⟩ : ngap_ue_context_list).ues = empty_store.ues) ∧
    (increase_next_ran_ue_id wrap_store).next_ran_ue_id = ran_ue_id_min := by
  refine ⟨?_, c10_allocate_fresh_and_counter_only.2 wrap_store rfl⟩
  exact (c10_allocate_fresh_and_counter_only.1 empty_store 0 ⟨[], [], [], 1⟩ rfl
    (by decide)).2.2.2

/-! ### Claim theorems for the contention-resolution scheduling model -/

/-- Claim C1: a device in `AWAITING_RESOLUTION` holding a pending
identity-confirmation control element but no pending downlink data receives no
downlink allocation over any number of slots — the control element is never
scheduled in a transport block by itself. -/
theorem c1_pending_ce_without_data_gets_no_allocation
    (c : ue_context) (n : Nat)
    (hph : c.phase = conres_phase.awaiting_resolution)
    (hce : c.conres_ce_pending = true)
    (hnd : total_pending c = 0) :
    ((run_slots c (List.replicate n [])).2.all (fun r => r.ue_pdsch.isNone)) = true := by
  revert c hph hce hnd
  induction n with
  | zero =>
    intro c _ _ _
    rfl
  | succ n ih =>
    intro c hph hce hnd
    have halloc : alloc_ue c = none := by
      simp [alloc_ue, hph, hnd]
    have hrun : run_slot c [] = (c, ⟨none, cell_csi_rs_resources⟩) := by
      simp [run_slot, halloc]
    rw [List.replicate_succ]
    simp only [run_slots, hrun, List.all_cons, Option.isNone_none, Bool.true_and]
    exact ih c hph hce hnd

/-- Witness for C1: the awaiting device with only the control element pending,
run for three empty slots. -/
theorem c1_pending_ce_without_data_gets_no_allocation_witness :
    ((run_slots ctx_ce_only (List.replicate 3 [])).2.all (fun r => r.ue_pdsch.isNone)) = true :=
  c1_pending_ce_without_data_gets_no_allocation ctx_ce_only 3 rfl rfl rfl

/-- Claim C2: a device with both the pending control element and pending data
on one channel gets, in the serving slot, exactly one transport block whose
scheduled channel list is the control element first, immediately followed by
the data logical channel, addressed by the temporary address. -/
theorem c2_first_allocation_ce_then_data
    (c : ue_context) (lcid b : Nat)
    (hph : c.phase = conres_phase.awaiting_resolution)
    (hce : c.conres_ce_pending = true)
    (hp : c.pending = [(lcid, b)])
    (hb : 0 < b) :
    (run_slot c []).2.ue_pdsch =
      some ⟨[[⟨UE_CON_RES_ID, conres_ce_size⟩, ⟨lcid, b⟩]],
        dci_dl_rnti_config_type.tc_rnti_f1_0⟩ := by
  have htot : total_pending c = b := by
    rw [total_pending, hp]
    simp
  have hpack : pack c = [⟨UE_CON_RES_ID, conres_ce_size⟩, ⟨lcid, b⟩] := by
    rw [pack, hce, hp]
    simp [hb]
  have halloc : alloc_ue c =
      some ⟨[pack c], dci_dl_rnti_config_type.tc_rnti_f1_0⟩ := by
    simp [alloc_ue, hph, htot, hb]
  simp [run_slot, halloc, hpack]

/-- Witness for C2: control element plus a 128-byte SRB1 message. -/
theorem c2_first_allocation_ce_then_data_witness :
    (run_slot ⟨conres_phase.awaiting_resolution, true, [(LCID_SRB1, 128)]⟩ []).2.ue_pdsch =
      some ⟨[[⟨UE_CON_RES_ID, conres_ce_size⟩, ⟨LCID_SRB1, 128⟩]],
        dci_dl_rnti_config_type.tc_rnti_f1_0⟩ :=
  c2_first_allocation_ce_then_data _ LCID_SRB1 128 rfl rfl rfl (by decide)

/-- Claim C3: a pending payload on the non-segmentable first control-plane
channel (SRB0) is always scheduled in full — the scheduled byte count for that
channel is at least the whole pending payload. -/
theorem c3_srb0_payload_never_truncated
    (c : ue_context) (b : Nat)
    (hsrb : mfind c.pending LCID_SRB0 = some b)
    (hb : 0 < b)
    (hph : c.phase ≠ conres_phase.released) :
    ∃ a, (run_slot c []).2.ue_pdsch = some a ∧
      ∃ tb, tb ∈ a.tb_list ∧
        ∃ e, e ∈ tb ∧ e.lcid = LCID_SRB0 ∧ b ≤ e.sched_bytes := by
  have hmem : (LCID_SRB0, b) ∈ c.pending := mfind_mem hsrb
  have hble : b ≤ total_pending c := by
    rw [total_pending]
    exact List.single_le_sum (fun x _ => Nat.zero_le x) _ (List.mem_map_of_mem Prod.snd hmem)
  have htot : 0 < total_pending c := lt_of_lt_of_le hb hble
  have hpmem : (⟨LCID_SRB0, b⟩ : lc_sched_info) ∈ pack c := by
    rw [pack]
    apply List.mem_append_right
    apply List.mem_map.mpr
    refine ⟨(LCID_SRB0, b), List.mem_filter.mpr ⟨hmem, ?_⟩, rfl⟩
    simp only [decide_eq_true_eq]
    exact hb
  cases hc : c.phase with
  | released => exact absurd hc hph
  | resolved =>
    have halloc : alloc_ue c =
        some ⟨[pack c], dci_dl_rnti_config_type.c_rnti_f1_0⟩ := by
      simp [alloc_ue, hc, htot]
    exact ⟨⟨[pack c], dci_dl_rnti_config_type.c_rnti_f1_0⟩, by simp [run_slot, halloc],
      pack c, List.mem_singleton.mpr rfl, ⟨LCID_SRB0, b⟩, hpmem, rfl, Nat.le_refl b⟩
  | detected =>
    have halloc : alloc_ue c =
        some ⟨[pack c], dci_dl_rnti_config_type.tc_rnti_f1_0⟩ := by
      simp [alloc_ue, hc, htot]
    exact ⟨⟨[pack c], dci_dl_rnti_config_type.tc_rnti_f1_0⟩, by simp [run_slot, halloc],
      pack c, List.mem_singleton.mpr rfl, ⟨LCID_SRB0, b⟩, hpmem, rfl, Nat.le_refl b⟩
  | awaiting_resolution =>
    have halloc : alloc_ue c =
        some ⟨[pack c], dci_dl_rnti_config_type.tc_rnti_f1_0⟩ := by
      simp [alloc_ue, hc, htot]
    exact ⟨⟨[pack c], dci_dl_rnti_config_type.tc_rnti_f1_0⟩, by simp [run_slot, halloc],
      pack c, List.mem_singleton.mpr rfl, ⟨LCID_SRB0, b⟩, hpmem, rfl, Nat.le_refl b⟩

/-- Witness for C3: the 128-byte SRB0 message is fully scheduled. -/
theorem c3_srb0_payload_never_truncated_witness :
    ((run_slot ctx_ce_srb0 []).2.ue_pdsch).isSome = true := by
  obtain ⟨a, ha, -⟩ := c3_srb0_payload_never_truncated ctx_ce_srb0 128 rfl (by decide) (by decide)
  rw [ha]
  rfl

/-- Claim C4: a slot in which an `AWAITING_RESOLUTION` device with its pending
control element receives a downlink allocation carries no reference-signal
(CSI-RS) resources in the slot result. -/
theorem c4_no_csi_rs_when_conres_allocated
    (c : ue_context) (a : dl_msg_alloc)
    (hph : c.phase = conres_phase.awaiting_resolution)
    (hce : c.conres_ce_pending = true)
    (halloc : (run_slot c []).2.ue_pdsch = some a) :
    (run_slot c []).2.csi_rs = [] := by
  cases h : alloc_ue c with
  | none => simp [run_slot, h] at halloc
  | some b => simp [run_slot, h, hph]

/-- Witness for C4: the serving slot of the contention-resolution data. -/
theorem c4_no_csi_rs_when_conres_allocated_witness :
    (run_slot ctx_ce_srb0 []).2.csi_rs = [] :=
  c4_no_csi_rs_when_conres_allocated ctx_ce_srb0
    ⟨[[⟨UE_CON_RES_ID, conres_ce_size⟩, ⟨LCID_SRB0, 128⟩]],
      dci_dl_rnti_config_type.tc_rnti_f1_0⟩ rfl rfl rfl

/-- Applying any event other than the upper-layer confirmation never moves a
device into `RESOLVED`. -/
theorem apply_event_phase_not_resolved (c : ue_context) (e : sched_event)
    (hph : c.phase ≠ conres_phase.resolved)
    (hne : e ≠ sched_event.crnti_confirmation) :
    (apply_event c e).phase ≠ conres_phase.resolved := by
  cases e with
  | conres_ce_indication =>
    cases hc : c.phase with
    | detected => simp [apply_event, hc]
    | awaiting_resolution => simp [apply_event, hc]
    | resolved => exact absurd hc hph
    | released => simp [apply_event, hc]
  | dl_buffer_state lcid bytes =>
    simpa [apply_event] using hph
  | crnti_confirmation => exact absurd rfl hne

/-- Draining a slot's events without a confirmation keeps the device out of
`RESOLVED`. -/
theorem foldl_apply_event_phase_not_resolved (evs : List sched_event) :
    ∀ c : ue_context, c.phase ≠ conres_phase.resolved →
      (∀ e ∈ evs, e ≠ sched_event.crnti_confirmation) →
      (evs.foldl apply_event c).phase ≠ conres_phase.resolved := by
  induction evs with
  | nil =>
    intro c h _
    exact h
  | cons e rest ih =>
    intro c h hall
    rw [List.foldl_cons]
    exact ih _ (apply_event_phase_not_resolved c e h (hall e (List.mem_cons_self _ _)))
      (fun x hx => hall x (List.mem_cons_of_mem _ hx))

/-- A device not yet resolved is only ever allocated with the temporary
address. -/
theorem alloc_ue_dci_before_resolution (c : ue_context)
    (hph : c.phase ≠ conres_phase.resolved) (a : dl_msg_alloc)
    (h : alloc_ue c = some a) :
    a.dci_type = dci_dl_rnti_config_type.tc_rnti_f1_0 := by
  cases hc : c.phase with
  | resolved => exact absurd hc hph
  | released => simp [alloc_ue, hc] at h
  | detected =>
    simp only [alloc_ue, hc] at h
    split at h
    · injection h with h
      subst h
      rfl
    · cases h
  | awaiting_resolution =>
    simp only [alloc_ue, hc] at h
    split at h
    · injection h with h
      subst h
      rfl
    · cases h

/-- Claim C5: as long as no explicit upper-layer confirmation arrives, every
downlink allocation for the device is addressed with the temporary address
(TC-RNTI DCI format), even across many slots and further traffic. -/
theorem c5_tc_rnti_until_confirmation
    (c : ue_context) (slots : List (List sched_event))
    (hph : c.phase ≠ conres_phase.resolved)
    (hnoconf : ∀ evs ∈ slots, sched_event.crnti_confirmation ∉ evs) :
    ((run_slots c slots).2.all (fun r =>
      match r.ue_pdsch with
      | none => true
      | some a => decide (a.dci_type = dci_dl_rnti_config_type.tc_rnti_f1_0))) = true := by
  revert c hph hnoconf
  induction slots with
  | nil =>
    intro c _ _
    rfl
  | cons evs rest ih =>
    intro c hph hnoconf
    have hc1 : (evs.foldl apply_event c).phase ≠ conres_phase.resolved :=
      foldl_apply_event_phase_not_resolved evs c hph (fun e he hee => by
        subst hee
        exact hnoconf evs (List.mem_cons_self _ _) he)
    have hrest : ∀ evs2 ∈ rest, sched_event.crnti_confirmation ∉ evs2 :=
      fun evs2 h2 => hnoconf evs2 (List.mem_cons_of_mem _ h2)
    cases halloc : alloc_ue (evs.foldl apply_event c) with
    | none =>
      have hrun : run_slot c evs =
          (evs.foldl apply_event c, ⟨none, cell_csi_rs_resources⟩) := by
        simp [run_slot, halloc]
      simp only [run_slots, hrun, List.all_cons, Bool.true_and]
      exact ih _ hc1 hrest
    | some a =>
      have hdci := alloc_ue_dci_before_resolution _ hc1 a halloc
      have hclear : (clear_after_alloc (evs.foldl apply_event c)).phase ≠
          conres_phase.resolved := hc1
      have hrun : run_slot c evs =
          (clear_after_alloc (evs.foldl apply_event c),
            ⟨some a,
              match (evs.foldl apply_event c).phase with
              | conres_phase.resolved => cell_csi_rs_resources
              | _ => []⟩) := by
        simp [run_slot, halloc]
      simp only [run_slots, hrun, List.all_cons, hdci, decide_True, Bool.true_and]
      exact ih _ hclear hrest

/-- Witness for C5: two served slots with intermediate best-effort traffic and
no confirmation keep the temporary address in use. -/
theorem c5_tc_rnti_until_confirmation_witness :
    ((run_slots ctx_ce_srb0
      [[], [sched_event.dl_buffer_state LCID_SRB1 64], []]).2.all (fun r =>
      match r.ue_pdsch with
      | none => true
      | some a => decide (a.dci_type = dci_dl_rnti_config_type.tc_rnti_f1_0))) = true :=
  c5_tc_rnti_until_confirmation ctx_ce_srb0
    [[], [sched_event.dl_buffer_state LCID_SRB1 64], []] (by decide) (by decide)
